import Mathlib

/-!
Verification development for the CSV_Doctor repository
(`src/csv_doctor/{utils,validator,analyzer,cleaner}.py`).

The pandas DataFrame is embedded as a row-major `Table` whose cells are
null, exact rationals (for float cells), or strings.  Python/numpy floats
are idealised as `ℚ`; the float value NaN is represented by `Option.none`
where it can arise; Python exceptions (ZeroDivisionError) are modelled
with `Except`.
-/

namespace CSVDoctor

/-- A cell of a DataFrame: missing value (NaN/None), a numeric value
(floats idealised as rationals), or a string. -/
inductive Cell where
  | null : Cell
  | num : ℚ → Cell
  | str : String → Cell
deriving DecidableEq, Repr

/-- Fold a digit list into the natural number it denotes (base 10). -/
def digitsToNat (l : List Char) : ℕ :=
  l.foldl (fun a c => 10 * a + (c.toNat - 48)) 0

/-- Model of `pd.to_numeric(x, errors='coerce')` on a single string,
restricted to plain decimal literals `[+|-]digits[.digits]` — the only
string shapes the verified claims exercise.  Returns `none` when the
coercion fails (pandas produces NaN). -/
def strToNum (s : String) : Option ℚ :=
  let l := s.toList
  let sgn : Bool := l.headD ' ' = '-'
  let l2 := if l.headD ' ' = '-' ∨ l.headD ' ' = '+' then l.tail else l
  let ip := l2.takeWhile Char.isDigit
  let rest := l2.drop ip.length
  if ip.isEmpty then none else
  let core : Option ℚ :=
    match rest with
    | [] => some (digitsToNat ip : ℚ)
    | '.' :: fp =>
        if fp.all Char.isDigit then
          some ((digitsToNat ip : ℚ) + (digitsToNat fp : ℚ) / (10 : ℚ) ^ fp.length)
        else none
    | _ => none
  core.map (fun q => if sgn then -q else q)

/-- Model of `pd.to_datetime(x, errors='coerce')` succeeding on a single
string, restricted to ISO `YYYY-MM-DD` dates — the only string shapes the
verified claims exercise. -/
def strToDate (s : String) : Bool :=
  match s.toList.splitOn '-' with
  | [y, m, d] =>
      y.all Char.isDigit && y.length = 4 &&
      m.all Char.isDigit && (decide (1 ≤ digitsToNat m) && decide (digitsToNat m ≤ 12)) &&
      d.all Char.isDigit && (decide (1 ≤ digitsToNat d) && decide (digitsToNat d ≤ 31))
  | _ => false

/-- Numeric coercion of a cell (`pd.to_numeric` element-wise): numbers
coerce to themselves, strings through `strToNum`, nulls stay NaN. -/
def Cell.toNum : Cell → Option ℚ
  | Cell.null => none
  | Cell.num q => some q
  | Cell.str s => strToNum s

/-- Datetime coercion success of a cell (`pd.to_datetime` element-wise):
numbers are interpreted as epochs (always succeed), strings through
`strToDate`, nulls stay NaT. -/
def Cell.dateOk : Cell → Bool
  | Cell.null => false
  | Cell.num _ => true
  | Cell.str s => strToDate s

/-- Whether a cell is a missing value (`pd.isna`). -/
def Cell.isNull : Cell → Bool
  | Cell.null => true
  | _ => false

/-! ## `utils.infer_column_type` -/

/-- `series.dropna()` on an arbitrary column: its non-null cells. -/
def nonNull (cells : List Cell) : List Cell :=
  cells.filter (fun c => ¬ c.isNull)

/-- `pd.to_numeric(non_null, errors='coerce').notna().sum() / len(non_null)`:
the share of non-null values that coerce to numeric. -/
def numericRatio (cells : List Cell) : ℚ :=
  ((nonNull cells).countP (fun c => c.toNum.isSome) : ℚ) / (nonNull cells).length

/-- `pd.to_datetime(non_null, errors='coerce').notna().sum() / len(non_null)`:
the share of non-null values that coerce to datetime. -/
def datetimeRatio (cells : List Cell) : ℚ :=
  ((nonNull cells).countP (fun c => c.dateOk) : ℚ) / (nonNull cells).length

/-- Embedding of `utils.infer_column_type` (src/csv_doctor/utils.py,
lines 46-80).  Works on the list of cells of one column; ratios are exact
rationals (the Python float comparisons `> 0.8`, `< 0.05` agree with the
exact rational comparisons for every list length the code can see). -/
def infer_column_type (cells : List Cell) : String :=
  if (nonNull cells).length = 0 then "unknown"
  else if numericRatio cells > 4/5 then "numeric"
  else if datetimeRatio cells > 4/5 then "datetime"
  else if (((nonNull cells).dedup.length : ℚ) / (nonNull cells).length < 1/20 ∨
            (nonNull cells).dedup.length < 20) then
    "categorical"
  else "text"

/-! ## Tables (pandas DataFrames) -/

/-- The pandas dtype of a column, restricted to the two kinds the code
dispatches on: a numeric dtype (`np.number`) or `object`. -/
inductive Dtype where
  | numericDt : Dtype
  | objectDt : Dtype
deriving DecidableEq, Repr

/-- Row-major embedding of a pandas DataFrame: ordered column names with
their dtypes, and a list of rows of cells. -/
structure Table where
  colNames : List String
  dtypes : List Dtype
  rows : List (List Cell)
deriving DecidableEq, Repr

/-- `len(df)`: the number of rows. -/
def Table.nrows (t : Table) : ℕ := t.rows.length

/-- `len(df.columns)`: the number of columns. -/
def Table.ncols (t : Table) : ℕ := t.colNames.length

/-- The cells of column `j`, top to bottom. -/
def Table.column (t : Table) (j : ℕ) : List Cell :=
  t.rows.map (fun r => r.getD j Cell.null)

/-- Column indices, in order. -/
def Table.colIdxs (t : Table) : List ℕ := List.range t.ncols

/-- The dtype of column `j`. -/
def Table.dtypeAt (t : Table) (j : ℕ) : Dtype := t.dtypes.getD j Dtype.objectDt

/-- Indices of the `select_dtypes(include=[np.number])` columns. -/
def Table.numericColIdxs (t : Table) : List ℕ :=
  t.colIdxs.filter (fun j => t.dtypeAt j = Dtype.numericDt)

/-- Indices of the `dtype == 'object'` columns. -/
def Table.objectColIdxs (t : Table) : List ℕ :=
  t.colIdxs.filter (fun j => t.dtypeAt j = Dtype.objectDt)

/-- A cell is a numeric value or a missing value (no string): the cells a
numeric-dtype pandas column can hold. -/
def Cell.isNumOrNull : Cell → Bool
  | Cell.str _ => false
  | _ => true

/-- Well-formedness of the embedding, matching the DataFrame invariants:
dtypes align with columns, every row has one cell per column, and
numeric-dtype columns hold only numbers and missing values. -/
structure Table.WF (t : Table) : Prop where
  dtypesLen : t.dtypes.length = t.colNames.length
  rowsLen : ∀ r ∈ t.rows, r.length = t.colNames.length
  numClean : ∀ j, j < t.ncols → t.dtypeAt j = Dtype.numericDt →
      ∀ c ∈ t.column j, c.isNumOrNull = true

/-- `series.isna().sum()` on a column. -/
def nullCount (cells : List Cell) : ℕ := cells.countP Cell.isNull

/-- `series.dropna()` on a numeric column: its numeric values in order. -/
def numVals (cells : List Cell) : List ℚ :=
  cells.filterMap (fun c => match c with | Cell.num q => some q | _ => none)

/-! ## Python numerics: rounding, division, NaN -/

/-- Round a rational to the nearest integer, ties to even — the rounding
of Python 3's builtin `round` on our exact-rational idealisation of
floats. -/
def roundHalfEven (q : ℚ) : ℤ :=
  let f := ⌊q⌋
  let r := q - f
  if r < 1/2 then f
  else if 1/2 < r then f + 1
  else if f % 2 = 0 then f else f + 1

/-- Python's `round(q, nd)`. -/
def pyRound (q : ℚ) (nd : ℕ) : ℚ := (roundHalfEven (q * 10 ^ nd) : ℚ) / 10 ^ nd

/-- Python exceptions the embedded code can raise. -/
inductive PyErr where
  | zeroDivision : PyErr
deriving DecidableEq, Repr

/-- Python `/` on builtin numbers: raises `ZeroDivisionError` on a zero
denominator. -/
def pyDiv (a b : ℚ) : Except PyErr ℚ :=
  if b = 0 then Except.error PyErr.zeroDivision else Except.ok (a / b)

/-- Numpy-scalar `/`: a zero denominator yields NaN (modelled as `none`)
with only a runtime warning; in every state the code reaches with a zero
denominator the numerator is also zero (`0/0 → NaN`). -/
def npDiv (a b : ℚ) : Option ℚ :=
  if b = 0 then none else some (a / b)

/-! ## `validator.CSVValidator` -/

/-- One anomaly reported by `detect_anomalies`, reduced to its tag and
column name (the human-readable message and payload fields of the source
dict play no role in any claim). -/
inductive Anomaly where
  | constantColumn (col : String) : Anomaly
  | highNullPercentage (col : String) : Anomaly
  | highVariance (col : String) : Anomaly
deriving DecidableEq, Repr

/-- `series.nunique()`: distinct non-null values. -/
def nunique (cells : List Cell) : ℕ :=
  (cells.filter (fun c => ¬ c.isNull)).dedup.length

/-- Mean of a list of rationals (callers guard against emptiness). -/
def meanQ (xs : List ℚ) : ℚ := xs.sum / xs.length

/-- Sample variance with the `n−1` denominator (`series.var()`); `none`
(NaN) when fewer than two values. -/
def sampleVar (xs : List ℚ) : Option ℚ :=
  if xs.length ≤ 1 then none
  else some ((xs.map (fun x => (x - meanQ xs) ^ 2)).sum / ((xs.length : ℚ) - 1))

/-- Embedding of `CSVValidator.detect_anomalies` (validator.py 156-201):
constant columns, then columns with more than 50% nulls, then numeric
columns with `std/|mean| > 2`.  The latter comparison is represented
squared (`var > 4·mean²`, equivalent since both sides are nonnegative)
because the standard deviation itself is irrational in general; a
one-value column has NaN std and triggers nothing, matching `none`. -/
def detect_anomalies (t : Table) : List Anomaly :=
  (t.colIdxs.filterMap (fun j =>
    if nunique (t.column j) = 1 then
      some (Anomaly.constantColumn (t.colNames.getD j ""))
    else none)) ++
  (t.colIdxs.filterMap (fun j =>
    if t.nrows ≠ 0 ∧ 100 * (nullCount (t.column j) : ℚ) / t.nrows > 50 then
      some (Anomaly.highNullPercentage (t.colNames.getD j ""))
    else none)) ++
  (t.numericColIdxs.filterMap (fun j =>
    let xs := numVals (t.column j)
    if 0 < xs.length then
      match sampleVar xs with
      | some v =>
          if meanQ xs ≠ 0 ∧ v > 4 * (meanQ xs) ^ 2 then
            some (Anomaly.highVariance (t.colNames.getD j ""))
          else none
      | none => none
    else none))

/-- The number of occurrences of row `r` in `rows`. -/
def countRow (rows : List (List Cell)) (r : List Cell) : ℕ :=
  rows.countP (fun r2 => decide (r2 = r))

/-- Result record of `detect_duplicates`. -/
structure DupStats where
  duplicate_count : ℕ
  duplicate_percentage : ℚ
  duplicate_rows : ℕ
deriving DecidableEq, Repr

/-- Embedding of `CSVValidator.detect_duplicates` (validator.py 140-154):
`duplicated(keep=False)` marks every row that has an identical mate; the
percentage divides by `len(df)` with Python ints and so raises
`ZeroDivisionError` on an empty table; `duplicate_rows` is the truncated
half of the count. -/
def detect_duplicates (t : Table) : Except PyErr DupStats :=
  let duplicate_count := t.rows.countP (fun r => 2 ≤ countRow t.rows r)
  match pyDiv (100 * duplicate_count) t.nrows with
  | Except.error e => Except.error e
  | Except.ok pct =>
      Except.ok { duplicate_count := duplicate_count,
                  duplicate_percentage := pyRound pct 2,
                  duplicate_rows := if 0 < duplicate_count then duplicate_count / 2 else 0 }

/-- Per-column record of `CSVValidator.get_null_distribution`. -/
structure VNullColStats where
  null_count : ℕ
  null_percentage : ℚ
  non_null_count : ℤ
deriving DecidableEq, Repr

/-- Result record of `CSVValidator.get_null_distribution`. -/
structure VNullDistribution where
  perColumn : List (String × VNullColStats)
  total_null_count : ℕ
  total_null_percentage : Option ℚ
deriving DecidableEq, Repr

/-- Total `df.isna().sum().sum()`. -/
def totalNulls (t : Table) : ℕ :=
  (t.colIdxs.map (fun j => nullCount (t.column j))).sum

/-- Embedding of `CSVValidator.get_null_distribution` (validator.py
73-96).  The per-column percentage divides a Python `int` by `len(df)`
and therefore raises `ZeroDivisionError` on a zero-row table; the total
percentage divides a numpy scalar by `total_cells` and yields NaN
(`none`) instead. -/
def CSVValidator.get_null_distribution (t : Table) :
    Except PyErr VNullDistribution := do
  let perCol ← t.colIdxs.mapM (fun j => do
    let nc := nullCount (t.column j)
    let pct ← pyDiv (100 * nc) t.nrows
    pure ((t.colNames.getD j "",
      VNullColStats.mk nc (pyRound pct 2) ((t.nrows : ℤ) - nc))))
  pure (VNullDistribution.mk perCol (totalNulls t)
    ((npDiv (100 * totalNulls t) (t.nrows * t.ncols)).map (fun p => pyRound p 2)))

/-- Per-column record of `CSVAnalyzer.get_null_distribution`; the
percentages are numpy quotients and can be NaN on a zero-row table. -/
structure ANullColStats where
  null_count : ℕ
  null_percentage : Option ℚ
  non_null_count : ℤ
  non_null_percentage : Option ℚ
deriving DecidableEq, Repr

/-- Embedding of `CSVAnalyzer.get_null_distribution` (analyzer.py 56-74).
Here `null_count` stays a numpy scalar, so dividing by `len(df) = 0`
produces NaN percentages rather than raising. -/
def CSVAnalyzer.get_null_distribution (t : Table) :
    List (String × ANullColStats) :=
  t.colIdxs.map (fun j =>
    let nc := nullCount (t.column j)
    (t.colNames.getD j "",
      ANullColStats.mk nc
        ((npDiv (100 * nc) t.nrows).map (fun p => pyRound p 2))
        ((t.nrows : ℤ) - nc)
        ((npDiv (100 * ((t.nrows : ℚ) - nc)) t.nrows).map (fun p => pyRound p 2))))

/-- Embedding of the type-consistency loop of
`CSVValidator.get_data_quality_score` (validator.py 242-251).  The source
calls `pd.to_numeric(self.df[col], errors='coerce')` and discards the
result; the percentage it compares against 10 is the null rate of the
original column (`self.df[col].isna()`), not the coercion-failure rate.
On a zero-row table the numpy quotient is NaN and the `> 10` comparison
is false. -/
def type_issues (t : Table) : ℕ :=
  t.objectColIdxs.countP (fun j =>
    decide (t.nrows ≠ 0 ∧ 100 * (nullCount (t.column j) : ℚ) / t.nrows > 10))

/-- Modelled from the spec: the type-consistency count as the spec states
it — object columns whose numeric-coercion failure rate (share of values,
nulls included, that `pd.to_numeric` leaves as NaN) exceeds 10%.  This is
what the discarded `pd.to_numeric` call in the source was evidently meant
to measure; kept for comparison against `type_issues`. -/
def type_issues_spec (t : Table) : ℕ :=
  t.objectColIdxs.countP (fun j =>
    decide (t.nrows ≠ 0 ∧
      100 * (((t.column j).countP (fun c => c.toNum.isNone)) : ℚ) / t.nrows > 10))

/-- Modelled from the spec: `type_score = max(0, 100 − 10 × n)` over the
spec's coercion-failure count. -/
def type_score_spec (t : Table) : ℚ :=
  max 0 (100 - (type_issues_spec t * 10 : ℚ))

/-- Result record of `get_data_quality_score`. -/
structure QualityScore where
  overall_score : ℚ
  null_score : ℚ
  duplicate_score : ℚ
  type_score : ℚ
  anomaly_score : ℚ
  issues_count : ℕ
deriving DecidableEq, Repr

/-- Python `max(0, 100 − pct)` where `pct` may be NaN: `max` keeps its
first argument when the comparison against NaN is false, so a NaN
percentage scores 0. -/
def scoreOfPct : Option ℚ → ℚ
  | none => 0
  | some p => max 0 (100 - p)

/-- `df.duplicated().sum()` (extras beyond the first occurrence of each
row): the number of rows minus the number of distinct rows. -/
def dupExtras (t : Table) : ℕ := t.nrows - t.rows.dedup.length

/-- The guarded duplicate percentage of `get_data_quality_score`
(validator.py 238): `100 * df.duplicated().sum() / len(df)` with an
explicit `if len(self.df) > 0 else 0` guard. -/
def dup_pct (t : Table) : ℚ :=
  if 0 < t.nrows then 100 * (dupExtras t : ℚ) / t.nrows else 0

/-- Embedding of `CSVValidator.get_data_quality_score` (validator.py
224-272).  The Python float weights `0.3/0.2/0.2/0.3` are idealised as
exact rationals (at every value the claims evaluate, the float
computation agrees exactly). -/
def get_data_quality_score (t : Table) : QualityScore :=
  let null_pct : Option ℚ := npDiv (100 * totalNulls t) (t.nrows * t.ncols)
  let null_score := scoreOfPct null_pct
  let dp := dup_pct t
  let dup_score := max 0 (100 - dp)
  let type_score := max 0 (100 - (type_issues t * 10 : ℚ))
  let anomalies := detect_anomalies t
  let anomaly_score := max 0 (100 - (anomalies.length * 15 : ℚ))
  let overall := null_score * (3/10) + dup_score * (2/10) +
    type_score * (2/10) + anomaly_score * (3/10)
  { overall_score := pyRound overall 2
    null_score := pyRound null_score 2
    duplicate_score := pyRound dup_score 2
    type_score := pyRound type_score 2
    anomaly_score := pyRound anomaly_score 2
    issues_count := anomalies.length + (if 0 < dp then 1 else 0) +
      (match null_pct with | some p => if 0 < p then 1 else 0 | none => 0) }

/-! ## Concrete tables used as claim evidence -/

/-- Three rows, one object column of non-numeric, non-null strings. -/
def tableC1 : Table :=
  Table.mk ["a"] [Dtype.objectDt] [[Cell.str "x"], [Cell.str "y"], [Cell.str "z"]]

/-- A flawless table: a numeric column and a fully numeric-coercible
object column, no nulls, distinct rows. -/
def tableC2 : Table :=
  Table.mk ["a", "b"] [Dtype.numericDt, Dtype.objectDt]
    [[Cell.num 1, Cell.str "1"], [Cell.num 2, Cell.str "2"]]

/-- A zero-row table with one column. -/
def tableC4 : Table := Table.mk ["a"] [Dtype.objectDt] []

/-! ## Claim C1 -/

/-- Claim C1 (code-bug evidence).  The claim states that `type_score`
is `max(0, 100 − 10 × n)` with `n` the number of object columns whose
numeric-coercion failure rate exceeds 10%.  On `tableC1` — one object
column of three non-numeric strings, no nulls — that reading demands
`n = 1` and `type_score = 90` (computed here by the spec-modelled
`type_score_spec`), but the code returns `type_score = 100`: it coerces
with `pd.to_numeric` and then discards the result, comparing the null
rate of the original column against 10 instead. -/
theorem C1_type_score_measures_nulls_not_coercion :
    (get_data_quality_score tableC1).type_score = 100 ∧
      type_score_spec tableC1 = 90 := by
  constructor
  · simp [get_data_quality_score, type_issues, scoreOfPct, dup_pct, dupExtras, totalNulls,
      npDiv, pyRound, roundHalfEven, detect_anomalies,
      Table.objectColIdxs, Table.numericColIdxs, Table.colIdxs,
      Table.ncols, Table.nrows, Table.dtypeAt, tableC1, nullCount, Table.column, nunique,
      numVals, meanQ, sampleVar, List.countP, List.countP.go, Cell.isNull,
      List.range, List.range.loop, List.getD,
      Bool.cond_decide, List.dedup, List.pwFilter]
    all_goals norm_num
  · have h : type_issues_spec tableC1 = 1 := by
      simp [type_issues_spec, Table.objectColIdxs, Table.colIdxs, Table.ncols, Table.nrows,
        Table.dtypeAt, tableC1, Table.column, List.countP, List.countP.go,
        Cell.toNum, strToNum, digitsToNat, List.range, List.range.loop,
        List.getD, Bool.cond_decide, List.headD, List.takeWhile, Option.isNone]
      all_goals norm_num
    rw [type_score_spec, h]
    norm_num [max_def]

/-! ## Claim C2 -/

/-- Claim C2: a non-empty table (hence, by the data-model invariant, one
with at least one column) in which no cell is null, no two rows are
identical, `detect_anomalies` returns no anomaly, and every object
column's numeric-coercion failure rate is at most 10%, gets
`overall_score` exactly 100 (the weighted sum
`0.3·null + 0.2·dup + 0.2·type + 0.3·anomaly` of four scores of 100). -/
theorem C2_perfect_table_scores_100 (t : Table) (hwf : t.WF)
    (hrows : t.rows ≠ []) (hcols : t.colNames ≠ [])
    (hnull : ∀ r ∈ t.rows, ∀ c ∈ r, c.isNull = false)
    (hdup : t.rows.Nodup)
    (hanom : detect_anomalies t = [])
    (hcoerce : ∀ j ∈ t.objectColIdxs,
      100 * (((t.column j).countP (fun c => c.toNum.isNone)) : ℚ) / t.nrows ≤ 10) :
    (get_data_quality_score t).overall_score = 100 := by
  have hn : 0 < t.nrows := List.length_pos.mpr hrows
  have hc : 0 < t.ncols := List.length_pos.mpr hcols
  have hcol0 : ∀ j, j < t.ncols → nullCount (t.column j) = 0 := by
    intro j hj
    rw [nullCount, List.countP_eq_zero]
    intro c hcm
    obtain ⟨r, hr, rfl⟩ := List.mem_map.mp hcm
    have hlen := hwf.rowsLen r hr
    have hjr : j < r.length := by rw [hlen]; exact hj
    rw [List.getD_eq_getElem _ _ hjr]
    simp [hnull r hr _ (List.getElem_mem hjr)]
  have htot : totalNulls t = 0 := by
    rw [totalNulls]
    apply List.sum_eq_zero
    intro x hx
    obtain ⟨j, hj, rfl⟩ := List.mem_map.mp hx
    exact hcol0 j (List.mem_range.mp hj)
  have hti : type_issues t = 0 := by
    rw [type_issues, List.countP_eq_zero]
    intro j hj
    have hjlt : j < t.ncols := List.mem_range.mp (List.mem_of_mem_filter hj)
    rw [hcol0 j hjlt]
    simp
  have hdd : dupExtras t = 0 := by
    rw [dupExtras, List.dedup_eq_self.mpr hdup]
    simp [Table.nrows]
  have hcellsne : ((t.nrows : ℚ) * t.ncols) ≠ 0 := by
    have := hn; have := hc; positivity
  rw [get_data_quality_score]
  simp only [htot, hti, hanom, hdd, dup_pct, npDiv, Nat.cast_zero, mul_zero, if_neg hcellsne,
    zero_div, scoreOfPct, List.length_nil, Nat.cast_ofNat, CharP.cast_eq_zero]
  rw [if_pos hn]
  norm_num [pyRound, roundHalfEven]

/-- Witness for C2 at `tableC2`: every hypothesis holds there and the
overall score evaluates to 100. -/
theorem C2_perfect_table_scores_100_witness :
    (get_data_quality_score tableC2).overall_score = 100 :=
  C2_perfect_table_scores_100 tableC2
    (Table.WF.mk (by decide) (by decide) (by decide))
    (by decide) (by decide) (by decide) (by decide)
    (by
      simp [detect_anomalies, Table.objectColIdxs, Table.numericColIdxs, Table.colIdxs,
        Table.ncols, Table.nrows, Table.dtypeAt, tableC2, nullCount, Table.column, nunique,
        numVals, meanQ, sampleVar, List.countP, List.countP.go, Cell.isNull,
        List.range, List.range.loop, List.getD, Bool.cond_decide, List.dedup, List.pwFilter]
      all_goals norm_num)
    (by
      simp [Table.objectColIdxs, Table.colIdxs, Table.ncols, Table.nrows, Table.dtypeAt,
        tableC2, Table.column, List.countP, List.countP.go, Cell.toNum, strToNum, digitsToNat,
        List.range, List.range.loop, List.getD, Bool.cond_decide, List.headD,
        List.takeWhile, Option.isNone]
      all_goals norm_num)

/-! ## Claim C4 -/

/-- Claim C4 (code-bug evidence).  The claim states that on a zero-row
table every percentage computation returns 0% rather than raising or
producing a non-numeric value.  On the zero-row one-column `tableC4`:
`CSVValidator.get_null_distribution` raises `ZeroDivisionError` (its
per-column percentage divides a Python int by `len(df) = 0`), so does
`detect_duplicates`; `CSVAnalyzer.get_null_distribution` returns NaN
(`none`) percentages; and the quality score's null percentage is NaN,
scoring 0 instead of treating the table as 0% null.  Only the duplicate
percentage inside `get_data_quality_score` is guarded. -/
theorem C4_zero_row_percentages_raise_or_nan :
    CSVValidator.get_null_distribution tableC4 = Except.error PyErr.zeroDivision ∧
    detect_duplicates tableC4 = Except.error PyErr.zeroDivision ∧
    (CSVAnalyzer.get_null_distribution tableC4).map (fun p => p.2.null_percentage) = [none] ∧
    (get_data_quality_score tableC4).null_score = 0 := by
  refine ⟨?_, ?_, ?_, ?_⟩
  · simp [CSVValidator.get_null_distribution, tableC4, Table.colIdxs, Table.ncols, Table.nrows,
      nullCount, Table.column, pyDiv, List.range, List.range.loop, List.mapM, List.mapM.loop,
      Except.map, Except.pure, Except.bind, bind, pure, Functor.map]
  · simp [detect_duplicates, tableC4, Table.nrows, pyDiv]
  · simp [CSVAnalyzer.get_null_distribution, tableC4, Table.colIdxs, Table.ncols, Table.nrows,
      nullCount, Table.column, npDiv, List.range, List.range.loop]
  · simp [get_data_quality_score, tableC4, Table.nrows, Table.ncols, totalNulls, npDiv,
      scoreOfPct, Table.colIdxs, List.range, List.range.loop, nullCount, Table.column,
      pyRound, roundHalfEven]

/-! ## Claim C3 -/

/-- Five non-null values of which exactly four (80%) coerce to numeric. -/
def cellsC3 : List Cell :=
  [Cell.num 1, Cell.num 2, Cell.num 3, Cell.num 4, Cell.str "z"]

/-- Counterexample to claim C3 as stated: `cellsC3` has a numeric-coercion
success ratio of exactly 80%, yet `infer_column_type` returns
"categorical", not "numeric" — the source comparison `> 0.8` is strict,
so the boundary value 0.8 is excluded, not included. -/
theorem C3_exactly_80_percent_is_not_numeric :
    numericRatio cellsC3 = 4/5 ∧ infer_column_type cellsC3 ≠ "numeric" ∧
      infer_column_type cellsC3 = "categorical" := by
  have hr : numericRatio cellsC3 = 4/5 := by
    simp [numericRatio, nonNull, cellsC3, List.countP, List.countP.go, Cell.toNum, strToNum,
      Cell.isNull, Bool.cond_decide, Option.isSome, List.headD, List.takeWhile, digitsToNat]
    all_goals norm_num
  have hd : ¬ (datetimeRatio cellsC3 > 4/5) := by
    have hz : strToDate "z" = false := by decide
    simp [datetimeRatio, nonNull, cellsC3, List.countP, List.countP.go, hz,
      Cell.isNull, Cell.dateOk, Bool.cond_decide]
    all_goals norm_num
  have ht : infer_column_type cellsC3 = "categorical" := by
    rw [infer_column_type, if_neg (by decide), if_neg (by rw [hr]; exact lt_irrefl _),
      if_neg hd, if_pos]
    right
    decide
  exact ⟨hr, by rw [ht]; decide, ht⟩

/-- Claim C3 amended: the 80% thresholds of `infer_column_type` are
strict, not inclusive.  With at least one non-null value: a numeric
success ratio strictly above 4/5 yields "numeric"; a ratio of exactly
4/5 does not; and when the numeric ratio is at most 4/5, a datetime
success ratio strictly above 4/5 yields "datetime". -/
theorem C3_numeric_datetime_thresholds_strict (cells : List Cell)
    (hne : ¬ (nonNull cells).length = 0) :
    (numericRatio cells > 4/5 → infer_column_type cells = "numeric") ∧
    (numericRatio cells = 4/5 → infer_column_type cells ≠ "numeric") ∧
    (numericRatio cells ≤ 4/5 → datetimeRatio cells > 4/5 →
      infer_column_type cells = "datetime") := by
  refine ⟨?_, ?_, ?_⟩
  · intro h
    rw [infer_column_type, if_neg hne, if_pos h]
  · intro h
    rw [infer_column_type, if_neg hne, if_neg (by rw [h]; exact lt_irrefl _)]
    split_ifs <;> decide
  · intro h1 h2
    rw [infer_column_type, if_neg hne, if_neg (not_lt.mpr h1), if_pos h2]

/-- Witness for C3 amended: a fully numeric column infers "numeric" and a
fully ISO-date string column infers "datetime". -/
theorem C3_numeric_datetime_thresholds_strict_witness :
    infer_column_type [Cell.num 1] = "numeric" ∧
    infer_column_type [Cell.str "2020-01-02"] = "datetime" := by
  constructor
  · exact (C3_numeric_datetime_thresholds_strict [Cell.num 1] (by decide)).1
      (by
        simp [numericRatio, nonNull, List.countP, List.countP.go, Cell.toNum, Cell.isNull,
          Bool.cond_decide]
        all_goals norm_num)
  · have hd : (Cell.str "2020-01-02").dateOk = true := by decide
    have hn : (Cell.str "2020-01-02").toNum.isSome = false := by decide
    exact (C3_numeric_datetime_thresholds_strict [Cell.str "2020-01-02"] (by decide)).2.2
      (by
        simp [numericRatio, nonNull, List.countP, List.countP.go, hn, Cell.isNull,
          Bool.cond_decide]
        all_goals norm_num)
      (by
        simp [datetimeRatio, nonNull, List.countP, List.countP.go, hd, Cell.isNull,
          Bool.cond_decide]
        all_goals norm_num)

/-! ## `analyzer.CSVAnalyzer`: correlations -/

/-- The rows where both cells hold numbers — pandas computes each Pearson
coefficient over pairwise-complete observations. -/
def pairedVals (xs ys : List Cell) : List (ℚ × ℚ) :=
  (xs.zip ys).filterMap (fun p =>
    match p with
    | (Cell.num a, Cell.num b) => some (a, b)
    | _ => none)

/-- The square of the Pearson coefficient of two columns, `none` when
pandas produces NaN (no paired observations, or a zero variance).  The
coefficient itself is `Sxy / √(Sxx·Syy)`, irrational in general, so the
embedding carries its square `Sxy²/(Sxx·Syy)`: the map `r ↦ r²` is a
strictly monotone bijection from the absolute coefficients in `[0,1]`
onto `[0,1]`, so every threshold comparison and every ordering of
absolute coefficients is represented faithfully. -/
def corrSq (xs ys : List Cell) : Option ℚ :=
  let ps := pairedVals xs ys
  let n : ℚ := ps.length
  if ps.length = 0 then none
  else
    let sxx := (ps.map (fun p => p.1 ^ 2)).sum - ((ps.map Prod.fst).sum) ^ 2 / n
    let syy := (ps.map (fun p => p.2 ^ 2)).sum - ((ps.map Prod.snd).sum) ^ 2 / n
    let sxy := (ps.map (fun p => p.1 * p.2)).sum -
      ((ps.map Prod.fst).sum) * ((ps.map Prod.snd).sum) / n
    if sxx = 0 ∨ syy = 0 then none
    else some (sxy ^ 2 / (sxx * syy))

/-- Embedding of `CSVAnalyzer.get_correlation_matrix` (analyzer.py
76-93): empty dict when there are NO numeric columns (the source guard
is `len == 0`, not `< 2`), otherwise the full matrix over the numeric
columns.  Cells carry the squared coefficient (see `corrSq`); the
3-decimal rounding of the source is omitted — no claim touches the cell
values of this matrix, only its key structure. -/
def get_correlation_matrix (t : Table) :
    List (String × List (String × Option ℚ)) :=
  if t.numericColIdxs.length = 0 then []
  else
    t.numericColIdxs.map (fun j =>
      (t.colNames.getD j "",
        t.numericColIdxs.map (fun i =>
          (t.colNames.getD i "", corrSq (t.column i) (t.column j)))))

/-! ## Claim C5 -/

/-- A table with exactly one numeric column. -/
def tableC5 : Table := Table.mk ["a"] [Dtype.numericDt] [[Cell.num 1], [Cell.num 2]]

/-- Counterexample to claim C5 as stated: `tableC5` has exactly one
numeric column (fewer than 2), yet `get_correlation_matrix` is NOT the
empty mapping — it returns the 1×1 self-correlation matrix.  The source
guard returns `{}` only when the numeric column count is zero. -/
theorem C5_one_numeric_column_matrix_not_empty :
    tableC5.numericColIdxs.length = 1 ∧
      get_correlation_matrix tableC5 = [("a", [("a", some 1)])] := by
  constructor
  · decide
  · simp [get_correlation_matrix, tableC5, Table.numericColIdxs, Table.colIdxs, Table.ncols,
      Table.dtypeAt, Table.column, corrSq, pairedVals, List.range, List.range.loop,
      List.getD, List.zip, List.zipWith]
    all_goals norm_num

/-- Claim C5 amended: `get_correlation_matrix` returns the empty mapping
exactly when the table has zero numeric columns; with one or more
numeric columns (in particular exactly one) the matrix is keyed by every
numeric column and is non-empty. -/
theorem C5_matrix_empty_iff_no_numeric_columns (t : Table) :
    get_correlation_matrix t = [] ↔ t.numericColIdxs = [] := by
  rw [get_correlation_matrix]
  by_cases h : t.numericColIdxs.length = 0
  · simp [h, List.length_eq_zero.mp h]
  · rw [if_neg h]
    simp only [List.map_eq_nil_iff]

/-! ## `cleaner.CSVCleaner`: duplicate removal -/

/-- The `keep` argument of `drop_duplicates`: `'first'`, `'last'`, or
`False` (remove every copy). -/
inductive Keep where
  | first : Keep
  | last : Keep
  | noneKept : Keep
deriving DecidableEq, Repr

/-- Helper for `keep='first'`: keep each row the first time it appears. -/
def dropDupsFirstAux (seen : List (List Cell)) : List (List Cell) → List (List Cell)
  | [] => []
  | r :: rs =>
      if r ∈ seen then dropDupsFirstAux seen rs
      else r :: dropDupsFirstAux (r :: seen) rs

/-- `df.drop_duplicates(keep=...)` on the row list (no column subset):
keep the first occurrence, the last occurrence, or no copy of each
duplicated row, preserving the order of the survivors. -/
def dropDups : Keep → List (List Cell) → List (List Cell)
  | Keep.first, rows => dropDupsFirstAux [] rows
  | Keep.last, rows => (dropDupsFirstAux [] rows.reverse).reverse
  | Keep.noneKept, rows => rows.filter (fun r => countRow rows r = 1)

/-- Embedding of `CSVCleaner.remove_duplicates` (cleaner.py 85-103)
restricted to its table effect with the default `subset=None`. -/
def remove_duplicates (t : Table) (keep : Keep) : Table :=
  { t with rows := dropDups keep t.rows }

/-- Every row surviving `dropDupsFirstAux seen` avoids `seen`, and the
survivors are pairwise distinct. -/
theorem dropDupsFirstAux_nodup (l : List (List Cell)) :
    ∀ seen, (dropDupsFirstAux seen l).Nodup ∧
      ∀ x ∈ dropDupsFirstAux seen l, x ∉ seen := by
  induction l with
  | nil => intro seen; exact ⟨List.nodup_nil, by intro x hx; cases hx⟩
  | cons r rs ih =>
      intro seen
      rw [dropDupsFirstAux]
      by_cases hr : r ∈ seen
      · rw [if_pos hr]; exact ih seen
      · rw [if_neg hr]
        obtain ⟨hnd, hnot⟩ := ih (r :: seen)
        refine ⟨List.nodup_cons.mpr ⟨?_, hnd⟩, ?_⟩
        · intro hmem
          exact (hnot r hmem) (List.mem_cons_self r seen)
        · intro x hx
          rcases List.mem_cons.mp hx with h | h
          · exact h ▸ hr
          · intro hxs
            exact (hnot x h) (List.mem_cons_of_mem r hxs)

/-- `dropDupsFirstAux` keeps the head of a fresh list. -/
theorem dropDupsFirst_ne_nil (r : List Cell) (rs : List (List Cell)) :
    dropDups Keep.first (r :: rs) ≠ [] := by
  rw [dropDups, dropDupsFirstAux]
  simp

/-- A duplicate-free row list contains each row at most once. -/
theorem countRow_le_one_of_nodup (l : List (List Cell)) (h : l.Nodup) (x : List Cell) :
    countRow l x ≤ 1 := by
  induction l with
  | nil => simp [countRow]
  | cons a as ih =>
      obtain ⟨hna, hnd⟩ := List.nodup_cons.mp h
      rw [countRow, List.countP_cons]
      by_cases hax : a = x
      · have h0 : countRow as x = 0 := by
          rw [countRow, List.countP_eq_zero]
          intro b hb
          simp only [decide_eq_true_eq]
          intro hbx
          exact hna (by rw [← hax] at hbx; exact hbx ▸ hb)
        rw [countRow] at h0
        simp [h0, hax]
      · have := ih hnd
        rw [countRow] at this
        simp [hax, this]

/-! ## Claim C7 -/

/-- Claim C7: on every non-empty table, `remove_duplicates(keep='first')`
followed by `detect_duplicates` reports `duplicate_count = 0` (and with
it a 0% duplicate percentage and zero duplicate row pairs). -/
theorem C7_remove_duplicates_then_detect_zero (t : Table) (h : t.rows ≠ []) :
    detect_duplicates (remove_duplicates t Keep.first) =
      Except.ok (DupStats.mk 0 0 0) := by
  have hnd : (dropDups Keep.first t.rows).Nodup := by
    rw [dropDups]; exact (dropDupsFirstAux_nodup t.rows []).1
  have hne : dropDups Keep.first t.rows ≠ [] := by
    cases ht : t.rows with
    | nil => exact absurd ht h
    | cons r rs => exact dropDupsFirst_ne_nil r rs
  have hcount : (dropDups Keep.first t.rows).countP
      (fun r => decide (2 ≤ countRow (dropDups Keep.first t.rows) r)) = 0 := by
    rw [List.countP_eq_zero]
    intro r hr
    have hle := countRow_le_one_of_nodup _ hnd r
    simp only [decide_eq_true_eq]
    omega
  have hlen : (remove_duplicates t Keep.first).nrows ≠ 0 := by
    simp only [remove_duplicates, Table.nrows]
    exact fun hz => hne (List.length_eq_zero.mp hz)
  rw [detect_duplicates]
  simp only [remove_duplicates] at hcount ⊢
  rw [hcount]
  rw [pyDiv, if_neg (by exact_mod_cast hlen)]
  norm_num [pyRound, roundHalfEven]

/-- A two-row table whose rows coincide. -/
def tableC7 : Table :=
  Table.mk ["a"] [Dtype.numericDt] [[Cell.num 1], [Cell.num 1]]

/-- Witness for C7 at `tableC7`. -/
theorem C7_remove_duplicates_then_detect_zero_witness :
    detect_duplicates (remove_duplicates tableC7 Keep.first) =
      Except.ok (DupStats.mk 0 0 0) :=
  C7_remove_duplicates_then_detect_zero tableC7 (by decide)

/-! ## `cleaner.CSVCleaner.standardize_column_names` -/

/-- ASCII fragment of Python `str.lower` (column names in the claims are
ASCII; Python's full Unicode lowering coincides with this on ASCII). -/
def pyLowerChar (c : Char) : Char :=
  match c with
  | 'A' => 'a' | 'B' => 'b' | 'C' => 'c' | 'D' => 'd' | 'E' => 'e' | 'F' => 'f' | 'G' => 'g'
  | 'H' => 'h' | 'I' => 'i' | 'J' => 'j' | 'K' => 'k' | 'L' => 'l' | 'M' => 'm' | 'N' => 'n'
  | 'O' => 'o' | 'P' => 'p' | 'Q' => 'q' | 'R' => 'r' | 'S' => 's' | 'T' => 't' | 'U' => 'u'
  | 'V' => 'v' | 'W' => 'w' | 'X' => 'x' | 'Y' => 'y' | 'Z' => 'z'
  | _ => c

/-- The whitespace characters Python `str.strip` removes (ASCII). -/
def pyIsWs (c : Char) : Bool :=
  decide (c = ' ') || decide (c = '\t') || decide (c = '\n') || decide (c = '\r') ||
    decide (c = '\x0b') || decide (c = '\x0c')

/-- ASCII fragment of Python `str.isalnum`. -/
def pyIsAlnumAscii (c : Char) : Bool :=
  decide ('a' ≤ c ∧ c ≤ 'z') || decide ('A' ≤ c ∧ c ≤ 'Z') || decide ('0' ≤ c ∧ c ≤ '9')

/-- Python `str.strip()` on a character list. -/
def pyStrip (l : List Char) : List Char :=
  ((l.dropWhile pyIsWs).reverse.dropWhile pyIsWs).reverse

/-- `new_col.replace(' ', '_')` character-wise. -/
def sanitizeChar (c : Char) : Char := if c = ' ' then '_' else c

/-- The character filter `c.isalnum() or c == '_'`. -/
def keepChar (c : Char) : Bool := pyIsAlnumAscii c || decide (c = '_')

/-- The name transform of `standardize_column_names` (cleaner.py
168-173): lowercase, strip, replace spaces with underscores, keep only
alphanumerics and underscores. -/
def standardizeChars (l : List Char) : List Char :=
  ((pyStrip (l.map pyLowerChar)).map sanitizeChar).filter keepChar

/-- `standardize_column_names`'s transform on one name. -/
def standardizeName (s : String) : String := String.mk (standardizeChars s.data)

/-- Embedding of `CSVCleaner.standardize_column_names` (cleaner.py
161-177): renames every column by `standardizeName` (the `rename` with
the constructed mapping sends each name through the transform). -/
def standardize_column_names (t : Table) : Table :=
  { t with colNames := t.colNames.map standardizeName }

/-- Every character is fixed by the lowering map or is one of the 26
uppercase letters. -/
theorem pyLowerChar_fixed_or_upper (d : Char) :
    pyLowerChar d = d ∨ d ∈ ['A','B','C','D','E','F','G','H','I','J','K','L','M',
      'N','O','P','Q','R','S','T','U','V','W','X','Y','Z'] := by
  unfold pyLowerChar
  split
  all_goals simp_all

/-- Lowering is idempotent character-wise. -/
theorem pyLowerChar_idem (c : Char) : pyLowerChar (pyLowerChar c) = pyLowerChar c := by
  rcases pyLowerChar_fixed_or_upper c with hc | hc
  · rw [hc, hc]
  · fin_cases hc <;> decide

/-- A lowered-then-sanitized character is fixed by lowering. -/
theorem pyLowerChar_sanitize_fixed (c : Char) :
    pyLowerChar (sanitizeChar (pyLowerChar c)) = sanitizeChar (pyLowerChar c) := by
  rw [sanitizeChar]
  by_cases h : pyLowerChar c = ' '
  · rw [if_pos h]; rfl
  · rw [if_neg h]; exact pyLowerChar_idem c

/-- Kept characters are not whitespace. -/
theorem keepChar_not_ws (c : Char) (h : keepChar c = true) : pyIsWs c = false := by
  by_contra hws
  have hws2 : pyIsWs c = true := by
    cases hv : pyIsWs c
    · exact absurd hv hws
    · rfl
  rw [pyIsWs] at hws2
  simp only [Bool.or_eq_true, decide_eq_true_eq] at hws2
  rcases hws2 with ((((h1 | h1) | h1) | h1) | h1) | h1 <;>
    (subst h1; exact absurd h (by decide))

/-- Kept characters are not spaces. -/
theorem keepChar_not_space (c : Char) (h : keepChar c = true) : c ≠ ' ' := by
  intro he
  subst he
  exact absurd h (by decide)

/-- `dropWhile` is the identity when no character satisfies the
predicate. -/
theorem dropWhile_eq_self_of_not (p : Char → Bool) (l : List Char)
    (h : ∀ c ∈ l, p c = false) : l.dropWhile p = l := by
  cases l with
  | nil => rfl
  | cons a as =>
      rw [List.dropWhile_cons, h a (List.mem_cons_self a as)]
      simp

/-- Stripping a whitespace-free list changes nothing. -/
theorem pyStrip_eq_self (l : List Char) (h : ∀ c ∈ l, pyIsWs c = false) :
    pyStrip l = l := by
  rw [pyStrip, dropWhile_eq_self_of_not _ _ h,
    dropWhile_eq_self_of_not _ _ (fun c hc => h c (List.mem_reverse.mp hc)),
    List.reverse_reverse]

/-- Stripping selects a sublist. -/
theorem pyStrip_sublist (l : List Char) : List.Sublist (pyStrip l) l := by
  rw [pyStrip]
  have h2 : List.Sublist ((l.dropWhile pyIsWs).reverse.dropWhile pyIsWs)
      (l.dropWhile pyIsWs).reverse := List.dropWhile_sublist _
  have h3 := h2.reverse
  rw [List.reverse_reverse] at h3
  exact h3.trans (List.dropWhile_sublist _)

/-- Every character of a standardized name is kept by the filter and is
of the lowered-and-sanitized shape. -/
theorem mem_standardizeChars {c : Char} {l : List Char} (h : c ∈ standardizeChars l) :
    keepChar c = true ∧ ∃ e, c = sanitizeChar (pyLowerChar e) := by
  rw [standardizeChars] at h
  have h1 := List.of_mem_filter h
  have h2 := List.mem_of_mem_filter h
  obtain ⟨d, hd, rfl⟩ := List.mem_map.mp h2
  obtain ⟨e, he, heq⟩ := List.mem_map.mp ((pyStrip_sublist (l.map pyLowerChar)).subset hd)
  exact ⟨h1, e, by rw [heq]⟩

/-- The name transform is idempotent. -/
theorem standardizeChars_idem (l : List Char) :
    standardizeChars (standardizeChars l) = standardizeChars l := by
  have hmem := fun c (hc : c ∈ standardizeChars l) => mem_standardizeChars hc
  conv_lhs => rw [standardizeChars]
  have hlow : (standardizeChars l).map pyLowerChar = standardizeChars l := by
    rw [show (standardizeChars l).map pyLowerChar = (standardizeChars l).map id from
      List.map_congr_left (fun c hc => by
        obtain ⟨hk, e, rfl⟩ := hmem c hc
        simp only [id_eq]
        exact pyLowerChar_sanitize_fixed e), List.map_id]
  rw [hlow, pyStrip_eq_self _ (fun c hc => keepChar_not_ws c (hmem c hc).1)]
  rw [show (standardizeChars l).map sanitizeChar = (standardizeChars l).map id from
    List.map_congr_left (fun c hc => by
      simp only [id_eq, sanitizeChar]
      rw [if_neg (keepChar_not_space c (hmem c hc).1)]), List.map_id]
  exact List.filter_eq_self.mpr (fun c hc => (hmem c hc).1)

/-! ## Claim C8 -/

/-- Claim C8: `standardize_column_names` is idempotent — applying it
twice yields the same sequence of column names as applying it once. -/
theorem C8_standardize_column_names_idempotent (t : Table) :
    (standardize_column_names (standardize_column_names t)).colNames =
      (standardize_column_names t).colNames := by
  simp only [standardize_column_names, List.map_map]
  apply List.map_congr_left
  intro s _
  simp only [Function.comp_apply, standardizeName]
  exact congrArg String.mk (standardizeChars_idem s.data)

/-! ## `cleaner.CSVCleaner.remove_outliers` (IQR method) -/

/-- `series.quantile(p)` with pandas' default linear interpolation:
position `p·(n−1)` in the ascending sort, interpolating between the two
neighbouring order statistics; `none` (NaN) when there are no values
(pandas' quantile drops nulls before interpolating). -/
def pandasQuantile (xs : List ℚ) (p : ℚ) : Option ℚ :=
  let s := xs.insertionSort (fun a b => a ≤ b)
  if s.length = 0 then none
  else
    let pos : ℚ := p * ((s.length : ℚ) - 1)
    let i : ℕ := (⌊pos⌋).toNat
    let lo := s.getD i 0
    let hi := s.getD (i + 1) lo
    some (lo + (pos - i) * (hi - lo))

/-- The row filter `(df[col] >= lower) & (df[col] <= upper)` on one
cell: NaN compares false on both sides in pandas, so null cells fail the
filter (a string cell cannot occur in a numeric column). -/
def cellInBounds (c : Cell) (lb ub : ℚ) : Bool :=
  match c with
  | Cell.num q => decide (lb ≤ q) && decide (q ≤ ub)
  | _ => false

/-- One iteration of the `remove_outliers` loop (cleaner.py 226-232) for
column `j`: quantiles are computed on the current (already filtered)
table; when they are NaN (empty column) every row comparison is false
and all rows are dropped. -/
def removeOutlierStep (thr : ℚ) (acc : Table) (j : ℕ) : Table :=
  let vals := numVals (acc.column j)
  match pandasQuantile vals (1/4), pandasQuantile vals (3/4) with
  | some q1, some q3 =>
      { acc with rows := acc.rows.filter (fun r =>
          cellInBounds (r.getD j Cell.null) (q1 - thr * (q3 - q1)) (q3 + thr * (q3 - q1))) }
  | _, _ => { acc with rows := [] }

/-- Embedding of `CSVCleaner.remove_outliers(method='iqr')` (cleaner.py
205-243) with the default column selection: the numeric-dtype columns,
listed once up front, processed left to right. -/
def remove_outliers_iqr (t : Table) (thr : ℚ) : Table :=
  t.numericColIdxs.foldl (removeOutlierStep thr) t

/-- A cell passing the bounds filter is not null. -/
theorem cellInBounds_not_null {c : Cell} {lb ub : ℚ}
    (h : cellInBounds c lb ub = true) : c.isNull = false := by
  cases c with
  | null =>
      rw [show cellInBounds Cell.null lb ub = false from rfl] at h
      cases h
  | num q => rfl
  | str s =>
      rw [show cellInBounds (Cell.str s) lb ub = false from rfl] at h
      cases h

/-- Each outlier step only removes rows. -/
theorem removeOutlierStep_subset {thr : ℚ} {acc : Table} {j : ℕ} {r : List Cell}
    (h : r ∈ (removeOutlierStep thr acc j).rows) : r ∈ acc.rows := by
  rw [removeOutlierStep] at h
  split at h
  · exact List.mem_of_mem_filter (show r ∈ List.filter _ acc.rows from h)
  · cases (show r ∈ ([] : List (List Cell)) from h)

/-- After the step for column `j`, every surviving row is non-null at
`j`. -/
theorem removeOutlierStep_not_null {thr : ℚ} {acc : Table} {j : ℕ} {r : List Cell}
    (h : r ∈ (removeOutlierStep thr acc j).rows) :
    (r.getD j Cell.null).isNull = false := by
  rw [removeOutlierStep] at h
  split at h
  · exact cellInBounds_not_null
      ((List.mem_filter.mp (show r ∈ List.filter _ acc.rows from h)).2)
  · cases (show r ∈ ([] : List (List Cell)) from h)

/-- The whole fold only removes rows. -/
theorem removeOutliers_foldl_subset (thr : ℚ) (js : List ℕ) :
    ∀ acc r, r ∈ (js.foldl (removeOutlierStep thr) acc).rows → r ∈ acc.rows := by
  induction js with
  | nil => intro acc r h; exact h
  | cons j js ih =>
      intro acc r h
      exact removeOutlierStep_subset (ih (removeOutlierStep thr acc j) r h)

/-! ## Claim C10 -/

/-- Claim C10: after `remove_outliers` with the IQR method, no surviving
row is null in any processed (numeric) column — rows with nulls there
are removed along with the out-of-range rows, because a NaN comparison
against either bound is false. -/
theorem C10_remove_outliers_drops_null_rows (t : Table) (thr : ℚ) :
    ∀ r ∈ (remove_outliers_iqr t thr).rows, ∀ j ∈ t.numericColIdxs,
      (r.getD j Cell.null).isNull = false := by
  rw [remove_outliers_iqr]
  suffices hgen : ∀ js : List ℕ, ∀ acc : Table, ∀ r ∈ (js.foldl (removeOutlierStep thr) acc).rows,
      ∀ j ∈ js, (r.getD j Cell.null).isNull = false from hgen t.numericColIdxs t
  intro js
  induction js with
  | nil => intro acc r _ j hj; cases hj
  | cons j' js ih =>
      intro acc r hr j hj
      rcases List.mem_cons.mp hj with rfl | hj2
      · exact removeOutlierStep_not_null
          (removeOutliers_foldl_subset thr js (removeOutlierStep thr acc j) r hr)
      · exact ih (removeOutlierStep thr acc j') r hr j hj2

/-- A numeric column containing a null row among in-range values. -/
def tableC10 : Table :=
  Table.mk ["a"] [Dtype.numericDt]
    [[Cell.num 1], [Cell.null], [Cell.num 2], [Cell.num 3]]

/-- Witness for C10 at `tableC10`: the surviving first row is non-null
in the processed column (and indeed the null row is gone). -/
theorem C10_remove_outliers_drops_null_rows_witness :
    (([Cell.num 1] : List Cell).getD 0 Cell.null).isNull = false :=
  C10_remove_outliers_drops_null_rows tableC10 (3/2) [Cell.num 1]
    (by
      simp [remove_outliers_iqr, removeOutlierStep, tableC10, Table.numericColIdxs,
        Table.colIdxs, Table.ncols, Table.dtypeAt, Table.column, numVals, pandasQuantile,
        List.insertionSort, List.orderedInsert, List.range, List.range.loop, List.getD,
        cellInBounds]
      all_goals norm_num)
    0 (by decide)

/-! ## `cleaner.CSVCleaner`: the remaining table transforms -/

/-- `df.dropna(how='all')`: drop rows whose every cell is null. -/
def remove_empty_rows (t : Table) : Table :=
  { t with rows := t.rows.filter (fun r => !(r.all Cell.isNull)) }

/-- `df.dropna(axis=1, how='all')`: drop columns whose every cell is
null. -/
def remove_empty_columns (t : Table) : Table :=
  let keep := t.colIdxs.filter (fun j => !((t.column j).all Cell.isNull))
  { colNames := keep.map (fun j => t.colNames.getD j ""),
    dtypes := keep.map (fun j => t.dtypeAt j),
    rows := t.rows.map (fun r => keep.map (fun j => r.getD j Cell.null)) }

/-- A pandas `.str` accessor method lifted to a cell: strings are
transformed, everything else (numbers, nulls) becomes NaN. -/
def strAccessorMap (f : String → String) : Cell → Cell
  | Cell.str s => Cell.str (f s)
  | _ => Cell.null

/-- Apply a string transform to every object-dtype column. -/
def mapObjectColumns (f : String → String) (t : Table) : Table :=
  { t with rows := t.rows.map (fun r => r.mapIdx (fun j c =>
      if t.dtypeAt j = Dtype.objectDt then strAccessorMap f c else c)) }

/-- `str.strip()` on a whole string. -/
def pyStripStr (s : String) : String := String.mk (pyStrip s.data)

/-- `CSVCleaner.trim_whitespace` with the default column selection (all
object columns). -/
def trim_whitespace (t : Table) : Table := mapObjectColumns pyStripStr t

/-- The `case` argument of `normalize_text_case` (the `'title'` branch
is not part of the modelled operation inventory). -/
inductive CaseKind where
  | lower : CaseKind
  | upper : CaseKind
deriving DecidableEq, Repr

/-- ASCII fragment of Python `str.upper`. -/
def pyUpperChar (c : Char) : Char :=
  match c with
  | 'a' => 'A' | 'b' => 'B' | 'c' => 'C' | 'd' => 'D' | 'e' => 'E' | 'f' => 'F' | 'g' => 'G'
  | 'h' => 'H' | 'i' => 'I' | 'j' => 'J' | 'k' => 'K' | 'l' => 'L' | 'm' => 'M' | 'n' => 'N'
  | 'o' => 'O' | 'p' => 'P' | 'q' => 'Q' | 'r' => 'R' | 's' => 'S' | 't' => 'T' | 'u' => 'U'
  | 'v' => 'V' | 'w' => 'W' | 'x' => 'X' | 'y' => 'Y' | 'z' => 'Z'
  | _ => c

/-- Case-normalise one string. -/
def applyCase : CaseKind → String → String
  | CaseKind.lower, s => String.mk (s.data.map pyLowerChar)
  | CaseKind.upper, s => String.mk (s.data.map pyUpperChar)

/-- The printable name of a case kind, as it appears in the change log. -/
def caseName : CaseKind → String
  | CaseKind.lower => "lower"
  | CaseKind.upper => "upper"

/-- `CSVCleaner.normalize_text_case` with the default column selection. -/
def normalize_text_case (k : CaseKind) (t : Table) : Table :=
  mapObjectColumns (applyCase k) t

/-- `fillna(fill_value)` on every column (`fill_missing_values` with
`method='value'`). -/
def fill_missing_value (v : Cell) (t : Table) : Table :=
  { t with rows := t.rows.map (fun r => r.map (fun c => if c.isNull then v else c)) }

/-- Total nulls of a table, counted over the rows. -/
def rowNulls (t : Table) : ℕ := (t.rows.map (fun r => r.countP Cell.isNull)).sum

/-! ## The cleaning pipeline (`CSVCleaner` object state) -/

/-- The state of a `CSVCleaner`: the working table `df`, the snapshot
`original_df` taken at construction, and the accumulated change log.
`df.copy()` in `__init__` and `reset` is rendered exactly by value
semantics. -/
structure CleanerState where
  df : Table
  original_df : Table
  changes : List String
deriving DecidableEq, Repr

/-- `CSVCleaner.__init__` (cleaner.py 13-22). -/
def CSVCleaner.init (df : Table) : CleanerState :=
  CleanerState.mk df df []

/-- `CSVCleaner.reset` (cleaner.py 24-27). -/
def CSVCleaner.reset (s : CleanerState) : CleanerState :=
  CleanerState.mk s.original_df s.original_df []

/-- The modelled cleaning operations (each with its source defaults:
no column subsets, IQR outlier method, `method='value'` filling). -/
inductive CleanOp where
  | removeEmptyRows : CleanOp
  | removeEmptyColumns : CleanOp
  | trimWhitespace : CleanOp
  | removeDuplicatesOp (keep : Keep) : CleanOp
  | fillMissingValue (v : Cell) : CleanOp
  | standardizeColumnNamesOp : CleanOp
  | normalizeTextCase (k : CaseKind) : CleanOp
  | removeOutliersOp (thr : ℚ) : CleanOp

/-- A conditional change-log entry: logged only when the operation had
an effect. -/
def logIf (n : ℕ) (msg : String) : List String :=
  if 0 < n then [msg] else []

/-- One cleaning method call on the pipeline state: the working table is
replaced and the change log extended exactly as in the source; no
operation touches `original_df`. -/
def applyOp (s : CleanerState) (op : CleanOp) : CleanerState :=
  match op with
  | CleanOp.removeEmptyRows =>
      let t := remove_empty_rows s.df
      CleanerState.mk t s.original_df
        (s.changes ++ logIf (s.df.nrows - t.nrows)
          ("Removed " ++ toString (s.df.nrows - t.nrows) ++ " completely empty rows"))
  | CleanOp.removeEmptyColumns =>
      let t := remove_empty_columns s.df
      CleanerState.mk t s.original_df
        (s.changes ++ logIf (s.df.ncols - t.ncols)
          ("Removed " ++ toString (s.df.ncols - t.ncols) ++ " completely empty columns"))
  | CleanOp.trimWhitespace =>
      CleanerState.mk (trim_whitespace s.df) s.original_df
        (s.changes ++
          ["Trimmed whitespace from " ++ toString s.df.objectColIdxs.length ++ " columns"])
  | CleanOp.removeDuplicatesOp keep =>
      let t := remove_duplicates s.df keep
      CleanerState.mk t s.original_df
        (s.changes ++ logIf (s.df.nrows - t.nrows)
          ("Removed " ++ toString (s.df.nrows - t.nrows) ++ " duplicate rows"))
  | CleanOp.fillMissingValue v =>
      let t := fill_missing_value v s.df
      CleanerState.mk t s.original_df
        (s.changes ++ logIf (rowNulls s.df - rowNulls t)
          ("Filled " ++ toString (rowNulls s.df - rowNulls t) ++
            " missing values using value"))
  | CleanOp.standardizeColumnNamesOp =>
      CleanerState.mk (standardize_column_names s.df) s.original_df
        (s.changes ++ ["Standardized column names"])
  | CleanOp.normalizeTextCase k =>
      CleanerState.mk (normalize_text_case k s.df) s.original_df
        (s.changes ++
          ["Normalized text case to " ++ caseName k ++ " in " ++
            toString s.df.objectColIdxs.length ++ " columns"])
  | CleanOp.removeOutliersOp thr =>
      let t := remove_outliers_iqr s.df thr
      CleanerState.mk t s.original_df
        (s.changes ++ logIf (s.df.nrows - t.nrows)
          ("Removed " ++ toString (s.df.nrows - t.nrows) ++ " outlier rows using iqr"))

/-- Load a table and run a chain of cleaning calls. -/
def run_pipeline (df : Table) (ops : List CleanOp) : CleanerState :=
  ops.foldl applyOp (CSVCleaner.init df)

/-- No operation modifies the stored original snapshot. -/
theorem applyOp_preserves_original (s : CleanerState) (op : CleanOp) :
    (applyOp s op).original_df = s.original_df := by
  cases op <;> rfl

/-! ## Claim C9 -/

/-- Claim C9: after any sequence of cleaning operations, the originally
loaded snapshot is unchanged, and `reset()` returns the working table to
that snapshot and empties the change log. -/
theorem C9_reset_restores_original (df : Table) (ops : List CleanOp) :
    (run_pipeline df ops).original_df = df ∧
    (CSVCleaner.reset (run_pipeline df ops)).df = df ∧
    (CSVCleaner.reset (run_pipeline df ops)).changes = [] := by
  have key : ∀ l : List CleanOp, ∀ s : CleanerState,
      (l.foldl applyOp s).original_df = s.original_df := by
    intro l
    induction l with
    | nil => intro s; rfl
    | cons op lops ih =>
        intro s
        rw [List.foldl_cons, ih (applyOp s op), applyOp_preserves_original]
  have h1 : (run_pipeline df ops).original_df = df := key ops (CSVCleaner.init df)
  exact ⟨h1, by rw [CSVCleaner.reset, h1], rfl⟩

/-! ## `analyzer.CSVAnalyzer.get_high_correlations` -/

/-- One output dict of `get_high_correlations`.  The `correlation` field
of the source holds the absolute Pearson coefficient; the embedding
stores its square (`correlation_sq`, see `corrSq`), and omits the
source's rounding of the stored value to 3 decimals — the squared
representation preserves every comparison between absolute coefficients,
and no claim depends on sub-thousandth distinctions. -/
structure CorrEntry where
  column_1 : String
  column_2 : String
  correlation_sq : ℚ
deriving DecidableEq, Repr

/-- The strict-upper-triangle index pairs `(a, b)`, `a < b`, in the
iteration order of the source (outer loop over columns `b`, inner loop
over rows `a`). -/
def upperPairs (n : ℕ) : List (ℕ × ℕ) :=
  (List.range n).flatMap (fun b => (List.range b).map (fun a => (a, b)))

/-- The candidate entry for one strict-upper-triangle position: kept
when the absolute coefficient exceeds the threshold (`|r| > thr` holds
iff `thr < 0 ∨ thr² < r²`), skipped when it is NaN (a NaN comparison is
false in pandas). -/
def highCorrEntry (t : Table) (threshold : ℚ) (ab : ℕ × ℕ) : Option CorrEntry :=
  let i := t.numericColIdxs.getD ab.1 0
  let j := t.numericColIdxs.getD ab.2 0
  match corrSq (t.column i) (t.column j) with
  | some c2 =>
      if threshold < 0 ∨ threshold ^ 2 < c2 then
        some (CorrEntry.mk (t.colNames.getD i "") (t.colNames.getD j "") c2)
      else none
  | none => none

/-- Descending order on entries by (squared) absolute correlation — the
key `sorted(..., key=abs(correlation), reverse=True)` sorts by. -/
def corrGe (e1 e2 : CorrEntry) : Prop := e2.correlation_sq ≤ e1.correlation_sq

instance : DecidableRel corrGe :=
  fun e1 e2 => inferInstanceAs (Decidable (e2.correlation_sq ≤ e1.correlation_sq))

instance : IsTotal CorrEntry corrGe :=
  ⟨fun a b => le_total b.correlation_sq a.correlation_sq⟩

instance : IsTrans CorrEntry corrGe :=
  ⟨fun _ _ _ hab hbc => le_trans hbc hab⟩

/-- Embedding of `CSVAnalyzer.get_high_correlations` (analyzer.py
95-130): empty when fewer than 2 numeric columns; otherwise the
strict-upper-triangle entries whose absolute coefficient exceeds the
threshold, stably sorted descending (Python's `sorted` is stable, as is
insertion sort). -/
def get_high_correlations (t : Table) (threshold : ℚ) : List CorrEntry :=
  if t.numericColIdxs.length < 2 then []
  else
    ((upperPairs t.numericColIdxs.length).filterMap
      (highCorrEntry t threshold)).insertionSort corrGe

/-- Upper-triangle pairs are strictly increasing and bounded. -/
theorem mem_upperPairs {n : ℕ} {p : ℕ × ℕ} (h : p ∈ upperPairs n) :
    p.1 < p.2 ∧ p.2 < n := by
  rw [upperPairs] at h
  obtain ⟨b, hb, hp⟩ := List.mem_flatMap.mp h
  obtain ⟨a, ha, rfl⟩ := List.mem_map.mp hp
  exact ⟨List.mem_range.mp ha, List.mem_range.mp hb⟩

/-- The strict-upper-triangle pair list has no repeats. -/
theorem upperPairs_nodup (n : ℕ) : (upperPairs n).Nodup := by
  rw [upperPairs]
  refine List.nodup_flatMap.mpr ⟨?_, ?_⟩
  · intro b _
    exact (List.nodup_range b).map (fun a a2 he => congrArg Prod.fst he)
  · refine (List.pairwise_lt_range n).imp ?_
    intro b1 b2 hlt
    simp only [Function.onFun]
    rw [List.disjoint_right]
    intro p hp2 hp1
    obtain ⟨a1, _, he1⟩ := List.mem_map.mp hp1
    obtain ⟨a2, _, he2⟩ := List.mem_map.mp hp2
    rw [← he1] at he2
    have := congrArg Prod.snd he2
    simp at this
    omega

/-- The numeric column indices repeat nothing. -/
theorem numericColIdxs_nodup (t : Table) : t.numericColIdxs.Nodup :=
  (List.nodup_range _).filter _

/-- Numeric column indices address real columns. -/
theorem mem_numericColIdxs_lt {t : Table} {j : ℕ} (h : j ∈ t.numericColIdxs) :
    j < t.ncols :=
  List.mem_range.mp (List.mem_of_mem_filter h)

/-- Distinct positions in the numeric-column list carry distinct column
names when column names are unique. -/
theorem posName_inj (t : Table) (hnames : t.colNames.Nodup) {a b : ℕ}
    (ha : a < t.numericColIdxs.length) (hb : b < t.numericColIdxs.length) (hab : a ≠ b) :
    t.colNames.getD (t.numericColIdxs.getD a 0) "" ≠
      t.colNames.getD (t.numericColIdxs.getD b 0) "" := by
  rw [List.getD_eq_getElem _ _ ha, List.getD_eq_getElem _ _ hb]
  have hne : t.numericColIdxs[a] ≠ t.numericColIdxs[b] := by
    intro he
    exact hab (((numericColIdxs_nodup t).getElem_inj_iff).mp he)
  have hlta : t.numericColIdxs[a] < t.ncols := mem_numericColIdxs_lt (List.getElem_mem ha)
  have hltb : t.numericColIdxs[b] < t.ncols := mem_numericColIdxs_lt (List.getElem_mem hb)
  rw [List.getD_eq_getElem _ _ hlta, List.getD_eq_getElem _ _ hltb]
  intro he
  exact hne ((hnames.getElem_inj_iff).mp he)

/-- What a produced entry records: the two names at the pair's
positions, the actual squared Pearson coefficient of the two columns,
and the threshold condition. -/
theorem highCorrEntry_some {t : Table} {thr : ℚ} {ab : ℕ × ℕ} {e : CorrEntry}
    (h : highCorrEntry t thr ab = some e) :
    e.column_1 = t.colNames.getD (t.numericColIdxs.getD ab.1 0) "" ∧
    e.column_2 = t.colNames.getD (t.numericColIdxs.getD ab.2 0) "" ∧
    corrSq (t.column (t.numericColIdxs.getD ab.1 0))
        (t.column (t.numericColIdxs.getD ab.2 0)) = some e.correlation_sq ∧
    (thr < 0 ∨ thr ^ 2 < e.correlation_sq) := by
  rw [highCorrEntry] at h
  rcases hcs : corrSq (t.column (t.numericColIdxs.getD ab.1 0))
      (t.column (t.numericColIdxs.getD ab.2 0)) with _ | c2
  · rw [hcs] at h
    cases h
  · rw [hcs] at h
    dsimp only at h
    by_cases hcond : thr < 0 ∨ thr ^ 2 < c2
    · rw [if_pos hcond] at h
      injection h with h2
      subst h2
      exact ⟨rfl, rfl, rfl, hcond⟩
    · rw [if_neg hcond] at h
      cases h

/-- Pairwise relations survive `filterMap` when the mapping respects
them. -/
theorem pairwise_filterMap_of_pairwise {α β : Type} (f : α → Option β)
    (R : α → α → Prop) (S : β → β → Prop)
    (H : ∀ a b, R a b → ∀ c, f a = some c → ∀ d, f b = some d → S c d) :
    ∀ l : List α, l.Pairwise R → (l.filterMap f).Pairwise S := by
  intro l hl
  induction hl with
  | nil => simp
  | @cons a l2 ha _ ih =>
      rw [List.filterMap_cons]
      cases hfa : f a with
      | none => exact ih
      | some c =>
          refine List.Pairwise.cons ?_ ih
          intro d hd
          obtain ⟨b, hb, hfb⟩ := List.mem_filterMap.mp hd
          exact H a b (ha b hb) c hfa d hfb

/-! ## Claim C6 -/

/-- Claim C6: for every table with unique column names (the data-model
invariant) and every threshold, `get_high_correlations` returns a list
with no self-pairs, no two entries naming the same unordered pair of
columns, every entry holding the absolute Pearson coefficient of its two
(numeric) columns above the threshold (in the squared representation of
`corrSq`; a perfectly anti-correlated pair records `|−1| = 1`, see the
witness), sorted descending by absolute correlation (`corrGe`). -/
theorem C6_high_correlations_structure (t : Table) (threshold : ℚ)
    (hnames : t.colNames.Nodup) :
    (∀ e ∈ get_high_correlations t threshold, e.column_1 ≠ e.column_2) ∧
    (get_high_correlations t threshold).Pairwise (fun e1 e2 =>
      ¬(e1.column_1 = e2.column_1 ∧ e1.column_2 = e2.column_2) ∧
      ¬(e1.column_1 = e2.column_2 ∧ e1.column_2 = e2.column_1)) ∧
    (∀ e ∈ get_high_correlations t threshold, ∃ i, ∃ j, i ∈ t.numericColIdxs ∧
      j ∈ t.numericColIdxs ∧ i ≠ j ∧
      e.column_1 = t.colNames.getD i "" ∧ e.column_2 = t.colNames.getD j "" ∧
      corrSq (t.column i) (t.column j) = some e.correlation_sq ∧
      (threshold < 0 ∨ threshold ^ 2 < e.correlation_sq)) ∧
    (get_high_correlations t threshold).Sorted corrGe := by
  by_cases hlen : t.numericColIdxs.length < 2
  · rw [get_high_correlations, if_pos hlen]
    exact ⟨fun e he => absurd he (List.not_mem_nil e), List.Pairwise.nil,
      fun e he => absurd he (List.not_mem_nil e), List.sorted_nil⟩
  · have hunfold : get_high_correlations t threshold =
        ((upperPairs t.numericColIdxs.length).filterMap
          (highCorrEntry t threshold)).insertionSort corrGe := by
      rw [get_high_correlations, if_neg hlen]
    have hself : ∀ e ∈ (upperPairs t.numericColIdxs.length).filterMap
        (highCorrEntry t threshold), e.column_1 ≠ e.column_2 := by
      intro e he
      obtain ⟨ab, hab, heq⟩ := List.mem_filterMap.mp he
      obtain ⟨hlt, hbn⟩ := mem_upperPairs hab
      obtain ⟨h1, h2, _, _⟩ := highCorrEntry_some heq
      rw [h1, h2]
      exact posName_inj t hnames (lt_trans hlt hbn) hbn (Nat.ne_of_lt hlt)
    have hval : ∀ e ∈ (upperPairs t.numericColIdxs.length).filterMap
        (highCorrEntry t threshold), ∃ i, ∃ j, i ∈ t.numericColIdxs ∧
        j ∈ t.numericColIdxs ∧ i ≠ j ∧
        e.column_1 = t.colNames.getD i "" ∧ e.column_2 = t.colNames.getD j "" ∧
        corrSq (t.column i) (t.column j) = some e.correlation_sq ∧
        (threshold < 0 ∨ threshold ^ 2 < e.correlation_sq) := by
      intro e he
      obtain ⟨ab, hab, heq⟩ := List.mem_filterMap.mp he
      obtain ⟨hlt, hbn⟩ := mem_upperPairs hab
      obtain ⟨h1, h2, h3, h4⟩ := highCorrEntry_some heq
      have ha : ab.1 < t.numericColIdxs.length := lt_trans hlt hbn
      refine ⟨t.numericColIdxs.getD ab.1 0, t.numericColIdxs.getD ab.2 0,
        ?_, ?_, ?_, h1, h2, h3, h4⟩
      · rw [List.getD_eq_getElem _ _ ha]; exact List.getElem_mem ha
      · rw [List.getD_eq_getElem _ _ hbn]; exact List.getElem_mem hbn
      · rw [List.getD_eq_getElem _ _ ha, List.getD_eq_getElem _ _ hbn]
        intro he2
        exact absurd ((numericColIdxs_nodup t).getElem_inj_iff.mp he2) (Nat.ne_of_lt hlt)
    have hpwbase : (upperPairs t.numericColIdxs.length).Pairwise
        (fun p q : ℕ × ℕ => p ≠ q ∧ p.1 < p.2 ∧ p.2 < t.numericColIdxs.length ∧
          q.1 < q.2 ∧ q.2 < t.numericColIdxs.length) :=
      (upperPairs_nodup t.numericColIdxs.length).imp_of_mem
        (fun {p q} hp hq hne =>
          ⟨hne, (mem_upperPairs hp).1, (mem_upperPairs hp).2,
            (mem_upperPairs hq).1, (mem_upperPairs hq).2⟩)
    have hposinj : ∀ {a b : ℕ}, a < t.numericColIdxs.length →
        b < t.numericColIdxs.length →
        t.colNames.getD (t.numericColIdxs.getD a 0) "" =
          t.colNames.getD (t.numericColIdxs.getD b 0) "" → a = b := by
      intro a b ha hb hname
      by_contra hne
      exact posName_inj t hnames ha hb hne hname
    have hpw : ((upperPairs t.numericColIdxs.length).filterMap
        (highCorrEntry t threshold)).Pairwise (fun e1 e2 =>
        ¬(e1.column_1 = e2.column_1 ∧ e1.column_2 = e2.column_2) ∧
        ¬(e1.column_1 = e2.column_2 ∧ e1.column_2 = e2.column_1)) := by
      refine pairwise_filterMap_of_pairwise _ _ _ ?_ _ hpwbase
      intro p q hpq e1 he1 e2 he2
      obtain ⟨hne, hp12, hp2n, hq12, hq2n⟩ := hpq
      obtain ⟨hc1, hc2, _, _⟩ := highCorrEntry_some he1
      obtain ⟨hd1, hd2, _, _⟩ := highCorrEntry_some he2
      constructor
      · rintro ⟨hx, hy⟩
        rw [hc1, hd1] at hx
        rw [hc2, hd2] at hy
        have h11 := hposinj (lt_trans hp12 hp2n) (lt_trans hq12 hq2n) hx
        have h22 := hposinj hp2n hq2n hy
        exact hne (Prod.ext h11 h22)
      · rintro ⟨hx, hy⟩
        rw [hc1, hd2] at hx
        rw [hc2, hd1] at hy
        have h12 := hposinj (lt_trans hp12 hp2n) hq2n hx
        have h21 := hposinj hp2n (lt_trans hq12 hq2n) hy
        omega
    rw [hunfold]
    refine ⟨?_, ?_, ?_, List.sorted_insertionSort _ _⟩
    · intro e he
      exact hself e ((List.mem_insertionSort _).mp he)
    · refine (List.perm_insertionSort corrGe _).symm.pairwise hpw ?_
      rintro x y ⟨hs1, hs2⟩
      exact ⟨fun ⟨a, b⟩ => hs1 ⟨a.symm, b.symm⟩, fun ⟨a, b⟩ => hs2 ⟨b.symm, a.symm⟩⟩
    · intro e he
      exact hval e ((List.mem_insertionSort _).mp he)

/-- Two perfectly anti-correlated numeric columns. -/
def tableC6 : Table :=
  Table.mk ["x", "y"] [Dtype.numericDt, Dtype.numericDt]
    [[Cell.num 1, Cell.num 3], [Cell.num 2, Cell.num 2], [Cell.num 3, Cell.num 1]]

/-- Witness for C6 at `tableC6` with the default threshold `0.7`: the
list is the single entry for the anti-correlated pair, recording squared
absolute correlation 1 (the coefficient is exactly −1, recorded as 1.0),
and the theorem's conclusions hold there. -/
theorem C6_high_correlations_structure_witness :
    get_high_correlations tableC6 (7/10) = [CorrEntry.mk "x" "y" 1] ∧
    (∀ e ∈ get_high_correlations tableC6 (7/10), e.column_1 ≠ e.column_2) := by
  constructor
  · have h1 : highCorrEntry tableC6 (7/10) (0, 1) = some (CorrEntry.mk "x" "y" 1) := by
      simp [highCorrEntry, corrSq, pairedVals, Table.column, tableC6, Table.numericColIdxs,
        Table.colIdxs, Table.ncols, Table.dtypeAt, List.range, List.range.loop, List.getD,
        List.zip, List.zipWith]
      all_goals norm_num
    have hidx : tableC6.numericColIdxs = [0, 1] := by decide
    simp [get_high_correlations, hidx, upperPairs, List.range, List.range.loop,
      List.flatMap, List.filterMap, h1, List.insertionSort, List.orderedInsert]
  · exact (C6_high_correlations_structure tableC6 (7/10) (by decide)).1

end CSVDoctor
